import Mathlib

/-!
Shallow embedding of the cfx-cli resource-archive decoder
(`src/archive.rs` and `src/commands/unpack.rs`).

Bytes are modelled as `Nat` values (each `< 256` where it matters); byte
buffers as `List Nat`.  All `u32` arithmetic is modelled modulo `2^32`
(Rust release / wrapping semantics); `u64` addresses are `Nat` values with
the bitwise operations of the source applied through `Nat.land` / `Nat.lor`
/ `Nat.xor` against the 64-bit mask.  Fallible Rust functions returning
`CfxResult<T>` become `Except CfxError T`; the `CfxError` constructors
carry exactly the data the corresponding Rust `format!` error messages
interpolate.
-/

namespace Cfx

/-- Errors of the decoder, one constructor per `format!`-built error in the
source, carrying the interpolated values:
`readPastEnd` = "tried to read {bufferLen} bytes but there were only {totalLen} bytes left",
`invalidMagic` = "Invalid magic: {found} (expected: {expected})",
`invalidPosition` = "Invalid position: {pos}". -/
inductive CfxError where
  | readPastEnd (bufferLen totalLen : Nat)
  | invalidMagic (found expected : Nat)
  | invalidPosition (pos : Nat)
  deriving DecidableEq

/-- Semantics of `std::io::Cursor::read` on an in-memory slice: copy
`amt = min (buffer length) (available bytes after pos)` bytes into the front
of the buffer, leave the buffer tail unchanged, and report `amt`.  It never
fails and never reads past the end (a position beyond the data yields 0
available bytes). -/
def ioCursorRead (data : List Nat) (pos : Nat) (buffer : List Nat) :
    List Nat × Nat :=
  let amt := min buffer.length (data.length - pos)
  ((data.drop pos).take amt ++ buffer.drop amt, amt)

/-- `FMemoryArchive` (src/archive.rs:41): a byte buffer, the length captured
at construction, and the io-cursor position. -/
structure FMemoryArchive where
  data : List Nat
  len : Nat
  pos : Nat
  deriving DecidableEq

/-- `FMemoryArchive::new` (src/archive.rs:53): capture the buffer length. -/
def FMemoryArchive.new (data : List Nat) : FMemoryArchive :=
  { data := data, len := data.length, pos := 0 }

/-- `FMemoryArchive::read_bytes` (src/archive.rs:65): bounds check
`position as usize + buffer.len() > self.len` strictly before delegating
to the io cursor read.  The usize addition computing `total_len` wraps
modulo 2^64 (release semantics), so a position near `u64::MAX` can wrap
the sum below `self.len` and slip past the check (the io cursor read then
copies 0 bytes).  On success returns the filled buffer, the count, and the
archive with its position advanced by the count. -/
def FMemoryArchive.read_bytes (a : FMemoryArchive) (buffer : List Nat) :
    Except CfxError (List Nat × Nat × FMemoryArchive) :=
  let buffer_len := buffer.length
  let total_len := (a.pos + buffer_len) % 2 ^ 64
  if total_len > a.len then
    .error (.readPastEnd buffer_len total_len)
  else
    let r := ioCursorRead a.data a.pos buffer
    .ok (r.1, r.2, { a with pos := a.pos + r.2 })

/-- `FMemoryArchive::set_position` (src/archive.rs:79): store verbatim, no
validation. -/
def FMemoryArchive.set_position (a : FMemoryArchive) (p : Nat) :
    FMemoryArchive :=
  { a with pos := p }

/-- Little-endian value of a byte list (first byte least significant). -/
def leValue (bytes : List Nat) : Nat :=
  bytes.foldr (fun b acc => b + 256 * acc) 0

/-- `FArchiveExt::read_uint` (src/archive.rs:20): read 4 raw bytes into a
zeroed scratch buffer, decode little-endian u32. -/
def FMemoryArchive.read_uint (a : FMemoryArchive) :
    Except CfxError (Nat × FMemoryArchive) := do
  let (buf, _, a) ← a.read_bytes (List.replicate 4 0)
  pure (leValue buf, a)

/-- `FArchiveExt::read_int` (src/archive.rs:30): read 4 raw bytes, decode
little-endian i32.  The only use in the decoder masks the result with
`0xFF`, which on two's-complement i32 equals the low byte of the unsigned
little-endian value, so the value is represented by its unsigned bits. -/
def FMemoryArchive.read_int (a : FMemoryArchive) :
    Except CfxError (Nat × FMemoryArchive) := do
  let (buf, _, a) ← a.read_bytes (List.replicate 4 0)
  pure (leValue buf, a)

/-- u32 wrapping left shift. -/
def shl32 (a b : Nat) : Nat := (a <<< b) % 2 ^ 32

/-- u32 wrapping multiplication. -/
def mul32 (a b : Nat) : Nat := (a * b) % 2 ^ 32

/-- u32 wrapping addition. -/
def add32 (a b : Nat) : Nat := (a + b) % 2 ^ 32

/-- `BUCKETS_CAPACITY` (src/commands/unpack.rs:11). -/
def BUCKETS_CAPACITY : List Nat := [0x1, 0x3, 0xF, 0x3F, 0x7F, 0x1, 0x1, 0x1, 0x1]

/-- `BUCKETS_SHIFTS` (src/commands/unpack.rs:12). -/
def BUCKETS_SHIFTS : List Nat := [4, 5, 7, 11, 17, 24, 25, 26, 27]

/-- `ResourceChunkFlags` (src/commands/unpack.rs:14). -/
structure ResourceChunkFlags where
  value : Nat
  type_val : Nat
  base_shift : Nat
  base_size : Nat
  deriving DecidableEq

/-- `ResourceChunkFlags::new` (src/commands/unpack.rs:22). -/
def ResourceChunkFlags.new (value : Nat) : ResourceChunkFlags :=
  let base_shift := value &&& 0xF
  { value := value
    type_val := (value >>> 28) &&& 0xF
    base_shift := base_shift
    base_size := shl32 0x200 base_shift }

/-- `ResourceChunkFlags::get_chunk_sizes` (src/commands/unpack.rs:32). -/
def ResourceChunkFlags.get_chunk_sizes (f : ResourceChunkFlags) : List Nat :=
  [shl32 f.base_size 8,
   shl32 f.base_size 7,
   shl32 f.base_size 6,
   shl32 f.base_size 5,
   shl32 f.base_size 4,
   shl32 f.base_size 3,
   shl32 f.base_size 2,
   shl32 f.base_size 1,
   shl32 f.base_size 0]

/-- `ResourceChunkFlags::get_buckets_count` (src/commands/unpack.rs:48). -/
def ResourceChunkFlags.get_buckets_count (f : ResourceChunkFlags) : List Nat :=
  [(f.value >>> BUCKETS_SHIFTS.getD 0 0) &&& BUCKETS_CAPACITY.getD 0 0,
   (f.value >>> BUCKETS_SHIFTS.getD 1 0) &&& BUCKETS_CAPACITY.getD 1 0,
   (f.value >>> BUCKETS_SHIFTS.getD 2 0) &&& BUCKETS_CAPACITY.getD 2 0,
   (f.value >>> BUCKETS_SHIFTS.getD 3 0) &&& BUCKETS_CAPACITY.getD 3 0,
   (f.value >>> BUCKETS_SHIFTS.getD 4 0) &&& BUCKETS_CAPACITY.getD 4 0,
   (f.value >>> BUCKETS_SHIFTS.getD 5 0) &&& BUCKETS_CAPACITY.getD 5 0,
   (f.value >>> BUCKETS_SHIFTS.getD 6 0) &&& BUCKETS_CAPACITY.getD 6 0,
   (f.value >>> BUCKETS_SHIFTS.getD 7 0) &&& BUCKETS_CAPACITY.getD 7 0,
   (f.value >>> BUCKETS_SHIFTS.getD 8 0) &&& BUCKETS_CAPACITY.getD 8 0]

/-- `ResourceChunkFlags::get_buckets_sizes` (src/commands/unpack.rs:64). -/
def ResourceChunkFlags.get_buckets_sizes (f : ResourceChunkFlags) : List Nat :=
  let chunk_sizes := f.get_chunk_sizes
  let buckets_count := f.get_buckets_count
  [mul32 (chunk_sizes.getD 0 0) (buckets_count.getD 0 0),
   mul32 (chunk_sizes.getD 1 0) (buckets_count.getD 1 0),
   mul32 (chunk_sizes.getD 2 0) (buckets_count.getD 2 0),
   mul32 (chunk_sizes.getD 3 0) (buckets_count.getD 3 0),
   mul32 (chunk_sizes.getD 4 0) (buckets_count.getD 4 0),
   mul32 (chunk_sizes.getD 5 0) (buckets_count.getD 5 0),
   mul32 (chunk_sizes.getD 6 0) (buckets_count.getD 6 0),
   mul32 (chunk_sizes.getD 7 0) (buckets_count.getD 7 0),
   mul32 (chunk_sizes.getD 8 0) (buckets_count.getD 8 0)]

/-- `ResourceChunkFlags::get_size` (src/commands/unpack.rs:82): the
left-associated wrapping sum of the nine bucket sizes. -/
def ResourceChunkFlags.get_size (f : ResourceChunkFlags) : Nat :=
  let b := f.get_buckets_sizes
  add32 (add32 (add32 (add32 (add32 (add32 (add32 (add32
    (b.getD 0 0) (b.getD 1 0)) (b.getD 2 0)) (b.getD 3 0)) (b.getD 4 0))
    (b.getD 5 0)) (b.getD 6 0)) (b.getD 7 0)) (b.getD 8 0)

/-- `VIRTUAL_BASE` (src/archive.rs:85). -/
def VIRTUAL_BASE : Nat := 0x50000000

/-- `PHYSICAL_BASE` (src/archive.rs:86). -/
def PHYSICAL_BASE : Nat := 0x60000000

/-- All-ones 64-bit mask, used to model the u64 bitwise complement
`!base_position`: `pos & !base` becomes `pos &&& (U64MASK ^^^ base)`. -/
def U64MASK : Nat := 2 ^ 64 - 1

/-- `FResourceArchive` (src/archive.rs:88): two io cursors (data plus
position each) and the shared 64-bit current address `pos`. -/
structure FResourceArchive where
  virtual_data : List Nat
  physical_data : List Nat
  virtual_pos : Nat
  physical_pos : Nat
  pos : Nat
  deriving DecidableEq

/-- `FResourceArchive::new` (src/archive.rs:101). -/
def FResourceArchive.new (virtual_data physical_data : List Nat) :
    FResourceArchive :=
  { virtual_data := virtual_data
    physical_data := physical_data
    virtual_pos := 0
    physical_pos := 0
    pos := 0 }

/-- `FResourceArchive::read_bytes` (src/archive.rs:121): route by the
marker bits of `pos` (virtual checked first), set the selected io cursor's
position to `pos & !base`, delegate to the raw `std::io::Cursor::read`
(which never bounds-fails), then re-OR the base marker into `pos`. -/
def FResourceArchive.read_bytes (a : FResourceArchive) (buffer : List Nat) :
    Except CfxError (List Nat × Nat × FResourceArchive) :=
  if a.pos &&& VIRTUAL_BASE = VIRTUAL_BASE then
    let newPos := a.pos &&& (U64MASK ^^^ VIRTUAL_BASE)
    let r := ioCursorRead a.virtual_data newPos buffer
    .ok (r.1, r.2, { a with virtual_pos := newPos + r.2, pos := a.pos ||| VIRTUAL_BASE })
  else if a.pos &&& PHYSICAL_BASE = PHYSICAL_BASE then
    let newPos := a.pos &&& (U64MASK ^^^ PHYSICAL_BASE)
    let r := ioCursorRead a.physical_data newPos buffer
    .ok (r.1, r.2, { a with physical_pos := newPos + r.2, pos := a.pos ||| PHYSICAL_BASE })
  else
    .error (.invalidPosition a.pos)

/-- `FResourceArchive::set_position` (src/archive.rs:140): store verbatim. -/
def FResourceArchive.set_position (a : FResourceArchive) (p : Nat) :
    FResourceArchive :=
  { a with pos := p }

/-- `MAGIC` (src/commands/unpack.rs:9). -/
def MAGIC : Nat := 0x37435352

/-- `ArchiveHeader` (src/commands/unpack.rs:97). -/
structure ArchiveHeader where
  flags : Nat
  virtual_page_flags : Nat
  physical_page_flags : Nat
  version : Nat
  deriving DecidableEq

/-- `ArchiveHeader::from` (src/commands/unpack.rs:105): four fields read in
declared order; the version is masked to its low 8 bits. -/
def ArchiveHeader.fromArchive (a : FMemoryArchive) :
    Except CfxError (ArchiveHeader × FMemoryArchive) := do
  let (flags, a) ← a.read_uint
  let (virtual_page_flags, a) ← a.read_uint
  let (physical_page_flags, a) ← a.read_uint
  let (version, a) ← a.read_int
  pure ({ flags := flags
          virtual_page_flags := virtual_page_flags
          physical_page_flags := physical_page_flags
          version := version &&& 0xFF }, a)

/-- `handle_unpack_command` (src/commands/unpack.rs:118) from the point the
file bytes are in memory, through the MagicCheck, HeaderParse,
SizeVirtual/SizePhysical and ExtractRaw stages (lines 129-146).  Note line
139 of the source: BOTH codec calls receive `header.virtual_page_flags`.
Returns the header, the raw virtual region bytes, the raw physical region
bytes, and the archive as left after the two region reads. -/
def unpackThroughExtract (buffer : List Nat) :
    Except CfxError (ArchiveHeader × List Nat × List Nat × FMemoryArchive) := do
  let archive := FMemoryArchive.new buffer
  let (magic, archive) ← archive.read_uint
  if magic ≠ MAGIC then
    throw (.invalidMagic magic MAGIC)
  else
    let (header, archive) ← ArchiveHeader.fromArchive archive
    let virtual_flags := ResourceChunkFlags.new header.virtual_page_flags
    let physical_flags := ResourceChunkFlags.new header.virtual_page_flags
    let virtual_buffer := List.replicate virtual_flags.get_size 0
    let physical_buffer := List.replicate physical_flags.get_size 0
    let (vbuf, _, archive) ← archive.read_bytes virtual_buffer
    let (pbuf, _, archive) ← archive.read_bytes physical_buffer
    pure (header, vbuf, pbuf, archive)

/-- Spec-side routing of a DualAddressArchive address, written from the
spec's words (§4.3 steps 1-2) amended for the source's priority order:
the virtual marker is tested first, so an address carrying both markers
routes to the virtual cursor instead of failing. -/
inductive RouteSpec where
  | virtualAt (offset : Nat)
  | physicalAt (offset : Nat)
  | invalid
  deriving DecidableEq

/-- The routing function on addresses, from the spec's words (amended):
virtual marker set selects the virtual cursor at the address with the
virtual marker bits cleared; otherwise physical marker set selects the
physical cursor at the address with the physical marker bits cleared;
otherwise the address is invalid. -/
def routeSpec (addr : Nat) : RouteSpec :=
  if addr &&& VIRTUAL_BASE = VIRTUAL_BASE then
    .virtualAt (addr &&& (U64MASK ^^^ VIRTUAL_BASE))
  else if addr &&& PHYSICAL_BASE = PHYSICAL_BASE then
    .physicalAt (addr &&& (U64MASK ^^^ PHYSICAL_BASE))
  else
    .invalid

instance {ε α : Type} [DecidableEq ε] [DecidableEq α] : DecidableEq (Except ε α) := fun x y =>
  match x, y with
  | .ok a, .ok b => if h : a = b then .isTrue (by rw [h]) else .isFalse (by simp [h])
  | .error a, .error b => if h : a = b then .isTrue (by rw [h]) else .isFalse (by simp [h])
  | .ok _, .error _ => .isFalse (by simp)
  | .error _, .ok _ => .isFalse (by simp)

/-- Synthetic archive for the region-size defect: magic, `flags = 0`,
`virtual_page_flags = 0`, `physical_page_flags = 0x08000000` (total size
512), `version = 0`, followed by 512 zero payload bytes. -/
def c1Input : List Nat :=
  [0x52, 0x53, 0x43, 0x37] ++ [0, 0, 0, 0] ++ [0, 0, 0, 0] ++
    [0, 0, 0, 0x08] ++ [0, 0, 0, 0] ++ List.replicate 512 0

/-- Synthetic archive for the round-trip claim: magic, `flags = 0`,
`virtual_page_flags = 0x08000000` (total size 512),
`physical_page_flags = 0` (total size 0), `version = 0`, followed by
exactly `512 + 0` zero payload bytes as the claim prescribes. -/
def c8Input : List Nat :=
  [0x52, 0x53, 0x43, 0x37] ++ [0, 0, 0, 0] ++ [0, 0, 0, 0x08] ++
    [0, 0, 0, 0] ++ [0, 0, 0, 0] ++ List.replicate 512 0

/-- If every bit of `b` is a bit of `a` (i.e. `a &&& b = b`), OR-ing `b`
back into `a` changes nothing. -/
theorem lor_eq_self_of_land_eq (a b : Nat) (h : a &&& b = b) : a ||| b = a := by
  apply Nat.eq_of_testBit_eq
  intro i
  have hb := congrArg (fun n => n.testBit i) h
  simp only [Nat.testBit_land] at hb
  simp only [Nat.testBit_lor]
  cases ha : a.testBit i <;> cases hbt : b.testBit i <;> simp_all

/-- Routed read, virtual case: result in terms of `ioCursorRead` on the
virtual data at the cleared-marker offset; the stored address is
unchanged. -/
theorem FResourceArchive.read_bytes_virtual (a : FResourceArchive)
    (buffer : List Nat) (h : a.pos &&& VIRTUAL_BASE = VIRTUAL_BASE) :
    a.read_bytes buffer =
      .ok ((ioCursorRead a.virtual_data (a.pos &&& (U64MASK ^^^ VIRTUAL_BASE)) buffer).1,
           (ioCursorRead a.virtual_data (a.pos &&& (U64MASK ^^^ VIRTUAL_BASE)) buffer).2,
           { a with virtual_pos := (a.pos &&& (U64MASK ^^^ VIRTUAL_BASE)) +
               (ioCursorRead a.virtual_data (a.pos &&& (U64MASK ^^^ VIRTUAL_BASE)) buffer).2 }) := by
  have hp := lor_eq_self_of_land_eq a.pos VIRTUAL_BASE h
  simp only [FResourceArchive.read_bytes, if_pos h, hp]

/-- Routed read, physical case. -/
theorem FResourceArchive.read_bytes_physical (a : FResourceArchive)
    (buffer : List Nat) (hv : ¬a.pos &&& VIRTUAL_BASE = VIRTUAL_BASE)
    (h : a.pos &&& PHYSICAL_BASE = PHYSICAL_BASE) :
    a.read_bytes buffer =
      .ok ((ioCursorRead a.physical_data (a.pos &&& (U64MASK ^^^ PHYSICAL_BASE)) buffer).1,
           (ioCursorRead a.physical_data (a.pos &&& (U64MASK ^^^ PHYSICAL_BASE)) buffer).2,
           { a with physical_pos := (a.pos &&& (U64MASK ^^^ PHYSICAL_BASE)) +
               (ioCursorRead a.physical_data (a.pos &&& (U64MASK ^^^ PHYSICAL_BASE)) buffer).2 }) := by
  have hp := lor_eq_self_of_land_eq a.pos PHYSICAL_BASE h
  simp only [FResourceArchive.read_bytes, if_neg hv, if_pos h, hp]

/-- Routed read, invalid case. -/
theorem FResourceArchive.read_bytes_invalid (a : FResourceArchive)
    (buffer : List Nat) (hv : ¬a.pos &&& VIRTUAL_BASE = VIRTUAL_BASE)
    (hp : ¬a.pos &&& PHYSICAL_BASE = PHYSICAL_BASE) :
    a.read_bytes buffer = .error (.invalidPosition a.pos) := by
  simp only [FResourceArchive.read_bytes, if_neg hv, if_neg hp]

/-- C2 counterexample: position 2^64 - 1 is reachable (`set_position`
never validates) and with a 1-byte buffer the usize bounds sum
`position + buffer.len()` wraps modulo 2^64 to 0, slipping past the
check, so the read returns Ok with 0 of the 1 requested bytes copied —
while position + buffer length (2^64) exceeds the captured total length
1, so the claim requires the read to fail with the length error (and, had
it succeeded, to return the buffer length). -/
theorem C2_counterexample :
    ([1] : List Nat).length < 2 ^ 64 - 1 + ([0] : List Nat).length ∧
    ((FMemoryArchive.new [1]).set_position (2 ^ 64 - 1)).read_bytes [0] =
      .ok ([0], 0, (FMemoryArchive.new [1]).set_position (2 ^ 64 - 1)) := by
  decide

/-- C2 (amended): for every ByteCursor (any buffer, any position reachable
through `set_position`) and every output buffer such that position +
buffer length does not wrap the 64-bit usize bounds sum (position +
buffer length < 2^64), `read_bytes` succeeds if and only if position +
buffer length does not exceed the captured total length; on success it
fills the buffer from the current position, returns the buffer length and
advances the position by exactly that many bytes; on failure the bounds
check fires strictly before any copy, so the error carries no new state:
the cursor (and the caller's buffer) are left unchanged. -/
theorem C2_amended_read_bytes_contract (data buffer : List Nat) (pos : Nat)
    (hnowrap : pos + buffer.length < 2 ^ 64) :
    ((∃ r, ((FMemoryArchive.new data).set_position pos).read_bytes buffer = .ok r) ↔
        pos + buffer.length ≤ data.length) ∧
    (pos + buffer.length ≤ data.length →
      ((FMemoryArchive.new data).set_position pos).read_bytes buffer =
        .ok ((data.drop pos).take buffer.length, buffer.length,
             (FMemoryArchive.new data).set_position (pos + buffer.length))) ∧
    (data.length < pos + buffer.length →
      ((FMemoryArchive.new data).set_position pos).read_bytes buffer =
        .error (.readPastEnd buffer.length (pos + buffer.length))) := by
  have hmod : (pos + buffer.length) % 2 ^ 64 = pos + buffer.length :=
    Nat.mod_eq_of_lt hnowrap
  have hok : pos + buffer.length ≤ data.length →
      ((FMemoryArchive.new data).set_position pos).read_bytes buffer =
        .ok ((data.drop pos).take buffer.length, buffer.length,
             (FMemoryArchive.new data).set_position (pos + buffer.length)) := by
    intro h
    have hmin : min buffer.length (data.length - pos) = buffer.length := by omega
    simp only [FMemoryArchive.read_bytes, FMemoryArchive.set_position,
      FMemoryArchive.new, ioCursorRead, hmod, hmin]
    rw [if_neg (by omega)]
    simp [List.drop_length]
  have herr : data.length < pos + buffer.length →
      ((FMemoryArchive.new data).set_position pos).read_bytes buffer =
        .error (.readPastEnd buffer.length (pos + buffer.length)) := by
    intro h
    simp only [FMemoryArchive.read_bytes, FMemoryArchive.set_position,
      FMemoryArchive.new, hmod]
    rw [if_pos (by omega)]
  refine ⟨⟨?_, ?_⟩, hok, herr⟩
  · rintro ⟨r, hr⟩
    by_contra hlt
    rw [herr (by omega)] at hr
    cases hr
  · intro h
    exact ⟨_, hok h⟩

/-- C2 witness: a concrete successful and exact read on the cursor over
`[1, 2, 3]` positioned at 1 with a 2-byte buffer, the non-wrapping
hypothesis discharged. -/
theorem C2_witness :
    ((FMemoryArchive.new [1, 2, 3]).set_position 1).read_bytes [0, 0] =
      .ok ([2, 3], 2, (FMemoryArchive.new [1, 2, 3]).set_position 3) :=
  (C2_amended_read_bytes_contract [1, 2, 3] [0, 0] 1 (by decide)).2.1 (by decide)

/-- C3: for every 32-bit flags word the codec computes
`base_shift = flags &&& 0xF`, `base_size = 0x200 <<< base_shift`,
`chunk_size[i] = base_size <<< (8 - i)` for i in 0..9, `bucket_count[i]`
from the shift table {4,5,7,11,17,24,25,26,27} and mask table
{0x1,0x3,0xF,0x3F,0x7F,0x1,0x1,0x1,0x1}, `bucket_size[i] =
chunk_size[i] * bucket_count[i]`, and a total region size equal to the sum
of the nine bucket sizes (all in u32 arithmetic, i.e. modulo 2^32); in
particular flags = 0 yields total size 0. -/
theorem C3_chunk_flags_codec (flags : Nat) :
    (ResourceChunkFlags.new flags).base_shift = flags &&& 0xF ∧
    (ResourceChunkFlags.new flags).base_size = (0x200 <<< (flags &&& 0xF)) % 2 ^ 32 ∧
    (∀ i : Fin 9, (ResourceChunkFlags.new flags).get_chunk_sizes.getD i 0 =
        ((ResourceChunkFlags.new flags).base_size <<< (8 - i.val)) % 2 ^ 32) ∧
    (∀ i : Fin 9, (ResourceChunkFlags.new flags).get_buckets_count.getD i 0 =
        (flags >>> ([4, 5, 7, 11, 17, 24, 25, 26, 27].getD i 0)) &&&
          ([0x1, 0x3, 0xF, 0x3F, 0x7F, 0x1, 0x1, 0x1, 0x1].getD i 0)) ∧
    (∀ i : Fin 9, (ResourceChunkFlags.new flags).get_buckets_sizes.getD i 0 =
        ((ResourceChunkFlags.new flags).get_chunk_sizes.getD i 0 *
          (ResourceChunkFlags.new flags).get_buckets_count.getD i 0) % 2 ^ 32) ∧
    (ResourceChunkFlags.new flags).get_size =
      (ResourceChunkFlags.new flags).get_buckets_sizes.sum % 2 ^ 32 ∧
    (ResourceChunkFlags.new 0).get_size = 0 := by
  refine ⟨rfl, rfl, ?_, ?_, ?_, ?_, by decide⟩
  · intro i
    fin_cases i <;> rfl
  · intro i
    fin_cases i <;> rfl
  · intro i
    fin_cases i <;> rfl
  · show add32 _ _ = _
    simp only [ResourceChunkFlags.get_size, ResourceChunkFlags.get_buckets_sizes,
      List.getD, List.get?, Option.getD_some, List.sum_cons, List.sum_nil,
      add32, Nat.mod_add_mod]
    congr 1
    ring

/-- C4 counterexample: at address 0x70000000 BOTH markers are set
(0x70000000 &&& 0x50000000 = 0x50000000 and 0x70000000 &&& 0x60000000 =
0x60000000), so by the claim ("exactly one ... must be set, else the read
fails") the read must fail; instead the code routes it to the virtual
cursor (at cleared-marker offset 0x20000000) and returns Ok. -/
theorem C4_counterexample :
    (0x70000000 &&& VIRTUAL_BASE = VIRTUAL_BASE) ∧
    (0x70000000 &&& PHYSICAL_BASE = PHYSICAL_BASE) ∧
    ((FResourceArchive.new [7] [9]).set_position 0x70000000).read_bytes [0] =
      .ok ([0], 0, { virtual_data := [7], physical_data := [9],
                     virtual_pos := 0x20000000, physical_pos := 0,
                     pos := 0x70000000 }) := by
  decide

/-- C4 (amended): the virtual marker is tested first; if it is set the
virtual cursor services the read at the address with the virtual marker
bits cleared, otherwise if the physical marker is set the physical cursor
services it at the address with the physical marker bits cleared,
otherwise the read fails with an invalid-address error carrying the
address (an address carrying both markers therefore goes to the virtual
cursor rather than failing); concretely 0x5000_0010 routes to the virtual
cursor at offset 0x10, 0x6000_0020 to the physical cursor at offset 0x20,
and 0x1234 fails. -/
theorem C4_amended_routing (vdata pdata buffer : List Nat) (addr : Nat) :
    (match routeSpec addr with
      | .virtualAt o =>
          ((FResourceArchive.new vdata pdata).set_position addr).read_bytes buffer =
            .ok ((ioCursorRead vdata o buffer).1, (ioCursorRead vdata o buffer).2,
                 { virtual_data := vdata, physical_data := pdata,
                   virtual_pos := o + (ioCursorRead vdata o buffer).2,
                   physical_pos := 0, pos := addr })
      | .physicalAt o =>
          ((FResourceArchive.new vdata pdata).set_position addr).read_bytes buffer =
            .ok ((ioCursorRead pdata o buffer).1, (ioCursorRead pdata o buffer).2,
                 { virtual_data := vdata, physical_data := pdata,
                   virtual_pos := 0,
                   physical_pos := o + (ioCursorRead pdata o buffer).2, pos := addr })
      | .invalid =>
          ((FResourceArchive.new vdata pdata).set_position addr).read_bytes buffer =
            .error (.invalidPosition addr)) ∧
    routeSpec 0x50000010 = .virtualAt 0x10 ∧
    routeSpec 0x60000020 = .physicalAt 0x20 ∧
    routeSpec 0x1234 = .invalid := by
  refine ⟨?_, by decide, by decide, by decide⟩
  cases hr : routeSpec addr with
  | virtualAt o =>
      have h1 : addr &&& VIRTUAL_BASE = VIRTUAL_BASE := by
        unfold routeSpec at hr
        split_ifs at hr <;> first | assumption | cases hr
      have ho : o = addr &&& (U64MASK ^^^ VIRTUAL_BASE) := by
        unfold routeSpec at hr
        split_ifs at hr <;> cases hr <;> rfl
      subst ho
      exact FResourceArchive.read_bytes_virtual
        ((FResourceArchive.new vdata pdata).set_position addr) buffer h1
  | physicalAt o =>
      have h1 : ¬addr &&& VIRTUAL_BASE = VIRTUAL_BASE := by
        unfold routeSpec at hr
        split_ifs at hr <;> first | assumption | cases hr
      have h2 : addr &&& PHYSICAL_BASE = PHYSICAL_BASE := by
        unfold routeSpec at hr
        split_ifs at hr <;> first | assumption | cases hr
      have ho : o = addr &&& (U64MASK ^^^ PHYSICAL_BASE) := by
        unfold routeSpec at hr
        split_ifs at hr <;> cases hr <;> rfl
      subst ho
      exact FResourceArchive.read_bytes_physical
        ((FResourceArchive.new vdata pdata).set_position addr) buffer h1 h2
  | invalid =>
      have h1 : ¬addr &&& VIRTUAL_BASE = VIRTUAL_BASE := by
        unfold routeSpec at hr
        split_ifs at hr <;> first | assumption | cases hr
      have h2 : ¬addr &&& PHYSICAL_BASE = PHYSICAL_BASE := by
        unfold routeSpec at hr
        split_ifs at hr <;> first | assumption | cases hr
      exact FResourceArchive.read_bytes_invalid
        ((FResourceArchive.new vdata pdata).set_position addr) buffer h1 h2

/-- C6 counterexample: address 0x50000000 carries a valid virtual marker
with cleared-marker offset 0, the virtual region is empty, and a 1-byte
read (offset 0 + 1 byte exceeds the 0-byte region) must by the claim fail
with a bounds error; instead the code returns Ok with 0 of the requested 1
byte copied, because the read is delegated to a raw `std::io::Cursor`
rather than to the bounds-checked ByteCursor. -/
theorem C6_counterexample :
    0 + 1 > ([] : List Nat).length ∧
    ((FResourceArchive.new [] [1]).set_position 0x50000000).read_bytes [0] =
      .ok ([0], 0, { virtual_data := [], physical_data := [1],
                     virtual_pos := 0, physical_pos := 0,
                     pos := 0x50000000 }) := by
  decide

/-- C6 (amended): each routed read is delegated to a raw (unchecked)
`std::io::Cursor::read`: for any address routed to a region at
cleared-marker offset o, reading a buffer of n bytes always succeeds,
copying exactly `min n (region length - o)` bytes into the front of the
buffer and leaving its tail unchanged; when `o + n` exceeds the region
length and n > 0 the read succeeds with fewer than n bytes instead of
failing with a bounds error. -/
theorem C6_amended_unchecked_read (vdata pdata buffer : List Nat) (addr o : Nat) :
    (routeSpec addr = .virtualAt o →
      (∃ a : FResourceArchive,
        ((FResourceArchive.new vdata pdata).set_position addr).read_bytes buffer =
          .ok ((vdata.drop o).take (min buffer.length (vdata.length - o)) ++
                 buffer.drop (min buffer.length (vdata.length - o)),
               min buffer.length (vdata.length - o), a)) ∧
      (vdata.length < o + buffer.length → 0 < buffer.length →
        min buffer.length (vdata.length - o) < buffer.length)) ∧
    (routeSpec addr = .physicalAt o →
      (∃ a : FResourceArchive,
        ((FResourceArchive.new vdata pdata).set_position addr).read_bytes buffer =
          .ok ((pdata.drop o).take (min buffer.length (pdata.length - o)) ++
                 buffer.drop (min buffer.length (pdata.length - o)),
               min buffer.length (pdata.length - o), a)) ∧
      (pdata.length < o + buffer.length → 0 < buffer.length →
        min buffer.length (pdata.length - o) < buffer.length)) := by
  constructor
  · intro hr
    have h1 : addr &&& VIRTUAL_BASE = VIRTUAL_BASE := by
      unfold routeSpec at hr
      split_ifs at hr <;> first | assumption | cases hr
    have ho : o = addr &&& (U64MASK ^^^ VIRTUAL_BASE) := by
      unfold routeSpec at hr
      split_ifs at hr <;> cases hr <;> rfl
    subst ho
    refine ⟨⟨_, FResourceArchive.read_bytes_virtual
      ((FResourceArchive.new vdata pdata).set_position addr) buffer h1⟩, ?_⟩
    intro hlt hpos
    omega
  · intro hr
    have h1 : ¬addr &&& VIRTUAL_BASE = VIRTUAL_BASE := by
      unfold routeSpec at hr
      split_ifs at hr <;> first | assumption | cases hr
    have h2 : addr &&& PHYSICAL_BASE = PHYSICAL_BASE := by
      unfold routeSpec at hr
      split_ifs at hr <;> first | assumption | cases hr
    have ho : o = addr &&& (U64MASK ^^^ PHYSICAL_BASE) := by
      unfold routeSpec at hr
      split_ifs at hr <;> cases hr <;> rfl
    subst ho
    refine ⟨⟨_, FResourceArchive.read_bytes_physical
      ((FResourceArchive.new vdata pdata).set_position addr) buffer h1 h2⟩, ?_⟩
    intro hlt hpos
    omega

/-- C6 witness: on the virtual region `[5]` at offset 0 a 2-byte read
succeeds with only 1 byte copied (buffer tail left as it was) instead of
failing. -/
theorem C6_witness :
    (∃ a : FResourceArchive,
      ((FResourceArchive.new [5] []).set_position 0x50000000).read_bytes [0, 0] =
        .ok ((([5] : List Nat).drop 0).take (min ([0, 0] : List Nat).length (([5] : List Nat).length - 0)) ++
               ([0, 0] : List Nat).drop (min ([0, 0] : List Nat).length (([5] : List Nat).length - 0)),
             min ([0, 0] : List Nat).length (([5] : List Nat).length - 0), a)) ∧
    (([5] : List Nat).length < 0 + ([0, 0] : List Nat).length → 0 < ([0, 0] : List Nat).length →
      min ([0, 0] : List Nat).length (([5] : List Nat).length - 0) < ([0, 0] : List Nat).length) :=
  (C6_amended_unchecked_read [5] [] [0, 0] 0x50000000 0).1 (by decide)

/-- C9: a DualAddressArchive read that returns Ok leaves the stored current
address exactly equal to its value before the call (re-ORing the base
marker never changes it since its bits were already set), so reads never
auto-increment the stored address and a consecutive read without an
intervening `set_position` is routed to the same region at the same
offset; a failed read returns only an error and mutates nothing. -/
theorem C9_pos_preserved (a : FResourceArchive) (buffer : List Nat) :
    match a.read_bytes buffer with
    | .ok (_, _, a2) =>
        a2.pos = a.pos ∧ routeSpec a2.pos = routeSpec a.pos ∧
        a2.virtual_data = a.virtual_data ∧ a2.physical_data = a.physical_data
    | .error _ => True := by
  by_cases hv : a.pos &&& VIRTUAL_BASE = VIRTUAL_BASE
  · rw [FResourceArchive.read_bytes_virtual a buffer hv]
    have hp := lor_eq_self_of_land_eq a.pos VIRTUAL_BASE hv
    exact ⟨rfl, rfl, rfl, rfl⟩
  · by_cases hph : a.pos &&& PHYSICAL_BASE = PHYSICAL_BASE
    · rw [FResourceArchive.read_bytes_physical a buffer hv hph]
      exact ⟨rfl, rfl, rfl, rfl⟩
    · rw [FResourceArchive.read_bytes_invalid a buffer hv hph]
      trivial

set_option maxRecDepth 40000 in
/-- C1 evaluated at the failing input: on `c1Input`
(`virtual_page_flags = 0`, `physical_page_flags = 0x08000000`) the
pipeline succeeds through ExtractRaw and hands back a physical region of
0 bytes, because src/commands/unpack.rs:139 runs the codec on
`virtual_page_flags` for the physical region too, whereas the claim
requires the physical region length to be
`ChunkFlagsCodec(physical_page_flags).total_size = 512`. -/
theorem C1_code_eval :
    (ResourceChunkFlags.new 0x08000000).get_size = 512 ∧
    (unpackThroughExtract c1Input).toOption.map
        (fun r => (r.1.physical_page_flags, r.2.1.length, r.2.2.1.length)) =
      some (0x08000000, 0, 0) := by
  decide

set_option maxRecDepth 40000 in
/-- C8 evaluated at the failing input: `c8Input` is exactly the synthetic
archive of the claim — magic, header with `virtual_page_flags =
0x08000000` and `physical_page_flags = 0`, and exactly
`ChunkFlagsCodec(virtual_page_flags).total_size +
ChunkFlagsCodec(physical_page_flags).total_size = 512 + 0` trailing zero
bytes — yet ExtractRaw fails with a bounds error (it tries to read 512 +
512 payload bytes, both region sizes having been computed from
`virtual_page_flags` by src/commands/unpack.rs:139), where the claim
requires it to succeed. -/
theorem C8_code_eval :
    (ResourceChunkFlags.new 0x08000000).get_size + (ResourceChunkFlags.new 0x0).get_size = 512 ∧
    c8Input.length = 20 + 512 ∧
    unpackThroughExtract c8Input = .error (.readPastEnd 512 1044) := by
  decide

/-- C10: the codec's outputs are u32 values (all below 2^32) and the
arithmetic wraps modulo 2^32: for flags = 0xF, base_size = 0x200 <<< 15 =
0x0100_0000 and the largest chunk size base_size <<< 8 = 2^32 wraps to 0,
so bucket 0 contributes 0 bytes; for flags = 0xFE000E the bucket-4 product
chunk_size * bucket_count = 2^27 * 127 exceeds 2^32 - 1 and is stored
wrapped; for flags = 0x3E780E the 9-term total sum 8187281408 exceeds
2^32 - 1 and get_size returns it wrapped. -/
theorem C10_wrapping :
    (∀ flags : Nat, (ResourceChunkFlags.new flags).get_size < 2 ^ 32) ∧
    (ResourceChunkFlags.new 0xF).base_size = 0x01000000 ∧
    (0x200 : Nat) <<< 0xF = 0x01000000 ∧
    (0x01000000 : Nat) <<< 8 = 2 ^ 32 ∧
    (ResourceChunkFlags.new 0xF).get_chunk_sizes.getD 0 0 = 0 ∧
    (ResourceChunkFlags.new 0xF).get_buckets_sizes.getD 0 0 = 0 ∧
    (ResourceChunkFlags.new 0xFE000E).get_chunk_sizes.getD 4 0 *
        (ResourceChunkFlags.new 0xFE000E).get_buckets_count.getD 4 0 = 2 ^ 27 * 127 ∧
    2 ^ 32 - 1 < 2 ^ 27 * 127 ∧
    (ResourceChunkFlags.new 0xFE000E).get_buckets_sizes.getD 4 0 = 2 ^ 27 * 127 % 2 ^ 32 ∧
    (ResourceChunkFlags.new 0x3E780E).get_buckets_sizes.sum = 8187281408 ∧
    2 ^ 32 - 1 < 8187281408 ∧
    (ResourceChunkFlags.new 0x3E780E).get_size = 8187281408 % 2 ^ 32 ∧
    (ResourceChunkFlags.new 0x3E780E).get_size ≠
      (ResourceChunkFlags.new 0x3E780E).get_buckets_sizes.sum := by
  refine ⟨?_, by decide, by decide, by decide, by decide, by decide, by decide,
    by decide, by decide, by decide, by decide, by decide, by decide⟩
  intro flags
  show add32 _ _ < 2 ^ 32
  exact Nat.mod_lt _ (by decide)

/-- A failed `read_bytes` can only be the bounds error, carrying the
requested length and the wrapped sum position + requested length. -/
theorem FMemoryArchive.read_bytes_error_shape (a : FMemoryArchive) (buffer : List Nat)
    (e : CfxError) (h : a.read_bytes buffer = .error e) :
    e = .readPastEnd buffer.length ((a.pos + buffer.length) % 2 ^ 64) := by
  by_cases hc : (a.pos + buffer.length) % 2 ^ 64 > a.len
  · simp only [FMemoryArchive.read_bytes, if_pos hc, Except.error.injEq] at h
    exact h.symm
  · simp only [FMemoryArchive.read_bytes, if_neg hc] at h
    simp at h

/-- A failed `read_uint` can only be a bounds error. -/
theorem FMemoryArchive.read_uint_error_shape (a : FMemoryArchive) (e : CfxError)
    (h : a.read_uint = .error e) : ∃ x y, e = .readPastEnd x y := by
  unfold FMemoryArchive.read_uint at h
  cases hrb : a.read_bytes (List.replicate 4 0) with
  | ok r =>
      obtain ⟨buf, n, a2⟩ := r
      rw [hrb] at h
      simp only [Bind.bind, Except.bind, pure, Except.pure] at h
      exact Except.noConfusion h
  | error e2 =>
      rw [hrb] at h
      simp only [Bind.bind, Except.bind, Except.error.injEq] at h
      subst h
      exact ⟨_, _, FMemoryArchive.read_bytes_error_shape a _ e2 hrb⟩

/-- A failed `read_int` can only be a bounds error. -/
theorem FMemoryArchive.read_int_error_shape (a : FMemoryArchive) (e : CfxError)
    (h : a.read_int = .error e) : ∃ x y, e = .readPastEnd x y := by
  unfold FMemoryArchive.read_int at h
  cases hrb : a.read_bytes (List.replicate 4 0) with
  | ok r =>
      obtain ⟨buf, n, a2⟩ := r
      rw [hrb] at h
      simp only [Bind.bind, Except.bind, pure, Except.pure] at h
      exact Except.noConfusion h
  | error e2 =>
      rw [hrb] at h
      simp only [Bind.bind, Except.bind, Except.error.injEq] at h
      subst h
      exact ⟨_, _, FMemoryArchive.read_bytes_error_shape a _ e2 hrb⟩

/-- A failed header parse can only be a bounds error propagated from one of
its four field reads. -/
theorem ArchiveHeader.fromArchive_error_shape (a : FMemoryArchive) (e : CfxError)
    (h : ArchiveHeader.fromArchive a = .error e) : ∃ x y, e = .readPastEnd x y := by
  unfold ArchiveHeader.fromArchive at h
  cases h1 : a.read_uint with
  | error e1 =>
      rw [h1] at h
      simp only [Bind.bind, Except.bind, Except.error.injEq] at h
      subst h
      exact FMemoryArchive.read_uint_error_shape a e1 h1
  | ok r1 =>
      obtain ⟨v1, a1⟩ := r1
      rw [h1] at h
      simp only [Bind.bind, Except.bind] at h
      cases h2 : a1.read_uint with
      | error e2 =>
          rw [h2] at h
          simp only [Except.error.injEq] at h
          subst h
          exact FMemoryArchive.read_uint_error_shape _ e2 h2
      | ok r2 =>
          obtain ⟨v2, a2⟩ := r2
          rw [h2] at h
          simp only [] at h
          cases h3 : a2.read_uint with
          | error e3 =>
              rw [h3] at h
              simp only [Except.error.injEq] at h
              subst h
              exact FMemoryArchive.read_uint_error_shape _ e3 h3
          | ok r3 =>
              obtain ⟨v3, a3⟩ := r3
              rw [h3] at h
              simp only [] at h
              cases h4 : a3.read_int with
              | error e4 =>
                  rw [h4] at h
                  simp only [Functor.map, Except.map, Except.error.injEq] at h
                  subst h
                  exact FMemoryArchive.read_int_error_shape _ e4 h4
              | ok r4 =>
                  obtain ⟨v4, a4⟩ := r4
                  rw [h4] at h
                  simp only [Functor.map, Except.map, pure, Except.pure] at h
                  exact Except.noConfusion h

/-- Reading the little-endian u32 at the head of a buffer that has at least
4 bytes: the value is `b0 + 256*b1 + 256^2*b2 + 256^3*b3` and the cursor
advances to 4. -/
theorem FMemoryArchive.read_uint_cons4 (b0 b1 b2 b3 : Nat) (rest : List Nat) :
    (FMemoryArchive.new (b0 :: b1 :: b2 :: b3 :: rest)).read_uint =
      .ok (b0 + 256 * (b1 + 256 * (b2 + 256 * b3)),
           { data := b0 :: b1 :: b2 :: b3 :: rest,
             len := (b0 :: b1 :: b2 :: b3 :: rest).length, pos := 4 }) := by
  have hrb : (FMemoryArchive.new (b0 :: b1 :: b2 :: b3 :: rest)).read_bytes (List.replicate 4 0) =
      .ok ([b0, b1, b2, b3], 4,
           { data := b0 :: b1 :: b2 :: b3 :: rest,
             len := (b0 :: b1 :: b2 :: b3 :: rest).length, pos := 4 }) := by
    simp only [FMemoryArchive.read_bytes, FMemoryArchive.new, ioCursorRead]
    rw [if_neg (by simp)]
    simp
  unfold FMemoryArchive.read_uint
  rw [hrb]
  simp only [Bind.bind, Except.bind, pure, Except.pure]
  simp [leValue]

/-- C7: on any input starting with 4 bytes b0 b1 b2 b3 the MagicCheck stage
reads the little-endian u32 `b0 + 256*b1 + 256^2*b2 + 256^3*b3`; the
pipeline fails with a format-mismatch error carrying both the read value
and 0x37435352 exactly when that value differs from 0x37435352; the value
equals 0x37435352 exactly for the prefix 52 53 43 37, and when the magic
matches no later stage can produce a format-mismatch error. -/
theorem C7_magic_check (b0 b1 b2 b3 : Nat) (rest : List Nat)
    (h0 : b0 < 256) (h1 : b1 < 256) (h2 : b2 < 256) (h3 : b3 < 256) :
    (b0 + 256 * (b1 + 256 * (b2 + 256 * b3)) ≠ MAGIC →
      unpackThroughExtract (b0 :: b1 :: b2 :: b3 :: rest) =
        .error (.invalidMagic (b0 + 256 * (b1 + 256 * (b2 + 256 * b3))) MAGIC)) ∧
    (b0 + 256 * (b1 + 256 * (b2 + 256 * b3)) = MAGIC ↔
      b0 = 0x52 ∧ b1 = 0x53 ∧ b2 = 0x43 ∧ b3 = 0x37) ∧
    (b0 + 256 * (b1 + 256 * (b2 + 256 * b3)) = MAGIC →
      ∀ e1 e2, unpackThroughExtract (b0 :: b1 :: b2 :: b3 :: rest) ≠
        .error (.invalidMagic e1 e2)) := by
  refine ⟨?_, ?_, ?_⟩
  · intro hne
    unfold unpackThroughExtract
    simp only []
    rw [FMemoryArchive.read_uint_cons4]
    simp only [Bind.bind, Except.bind]
    rw [if_pos hne]
    simp [throw, throwThe, MonadExceptOf.throw]
  · constructor
    · intro h
      simp only [MAGIC] at h
      refine ⟨?_, ?_, ?_, ?_⟩ <;> omega
    · rintro ⟨rfl, rfl, rfl, rfl⟩
      decide
  · intro hv e1 e2 hcontra
    unfold unpackThroughExtract at hcontra
    simp only [] at hcontra
    rw [FMemoryArchive.read_uint_cons4] at hcontra
    simp only [Bind.bind, Except.bind] at hcontra
    rw [if_neg (by simp [hv])] at hcontra
    generalize ({ data := b0 :: b1 :: b2 :: b3 :: rest,
                  len := (b0 :: b1 :: b2 :: b3 :: rest).length, pos := 4 } : FMemoryArchive) = a1 at hcontra
    cases hh : ArchiveHeader.fromArchive a1 with
    | error eh =>
        rw [hh] at hcontra
        obtain ⟨x, y, rfl⟩ := ArchiveHeader.fromArchive_error_shape a1 eh hh
        simp at hcontra
    | ok rh =>
        obtain ⟨header, a2⟩ := rh
        rw [hh] at hcontra
        simp only [] at hcontra
        cases hv1 : a2.read_bytes
            (List.replicate (ResourceChunkFlags.new header.virtual_page_flags).get_size 0) with
        | error ev =>
            rw [hv1] at hcontra
            obtain ⟨x, y, rfl⟩ := FMemoryArchive.read_bytes_error_shape _ _ ev hv1
            simp at hcontra
        | ok rv =>
            obtain ⟨vbuf, nv, a3⟩ := rv
            rw [hv1] at hcontra
            simp only [] at hcontra
            cases hp1 : a3.read_bytes
                (List.replicate (ResourceChunkFlags.new header.virtual_page_flags).get_size 0) with
            | error ep =>
                rw [hp1] at hcontra
                obtain ⟨x, y, rfl⟩ := FMemoryArchive.read_bytes_error_shape _ _ ep hp1
                simp at hcontra
            | ok rp =>
                obtain ⟨pbuf, np, a4⟩ := rp
                rw [hp1] at hcontra
                simp only [pure, Except.pure] at hcontra
                exact Except.noConfusion hcontra

/-- C7 witness: a zeroed 4-byte prefix fails the MagicCheck with both
values reported. -/
theorem C7_witness :
    unpackThroughExtract (0 :: 0 :: 0 :: 0 :: []) = .error (.invalidMagic 0 MAGIC) :=
  (C7_magic_check 0 0 0 0 [] (by decide) (by decide) (by decide) (by decide)).1 (by decide)

end Cfx
